import Mathlib

/-!
# Slide presentation controller (`script.js`, class `FiqhPresentation`)

A shallow embedding of the controller: the object's fields and the parts of the
document it reads and writes form one record, every method is a function on that
record, and an event listener is the function its callback computes.

Numbers: every number of the script is an IEEE 754 binary64 value. The index,
the slide count and slide numbers are integers that binary64 holds exactly
(`Int`, up to `2 ^ 53` in absolute value). A touch coordinate is a finite
binary64 value, kept as the rational it denotes (`ℚ`). The results of `/`, `*`
and `-` on such values are computed as binary64 does: the exact result rounded
to the nearest representable value, ties to even (`round64`), with overflow to
an infinity and the non-finite results of a division by zero kept apart
(`JSNum`).

The page is taken to meet the document contract: the elements `#progress`,
`#current-slide`, `#total-slides`, `#slide-dots`, `#next` and `#prev` exist, so
that only a missing slide can make a method fail.

A method that dereferences a missing slide (`this.slides[i]` is `undefined`)
throws a `TypeError`; `Outcome` records whether a call returned or threw,
together with the state at that moment.
-/

namespace FiqhPresentation

/-! ## Data model -/

/-- A binary64 value: a finite one, given as the rational it denotes, an
infinity, or NaN. -/
inductive JSNum where
  | fin (q : ℚ)
  | posInf
  | negInf
  | nan
  deriving DecidableEq

/-- One `.slide` element: whether its class list holds `active`, the text of its
`.slide-title` descendant (if any), and the two attributes `setupAccessibility`
writes. -/
structure Slide where
  active : Bool
  title : Option String
  role : Option String
  ariaLabel : Option String
  deriving DecidableEq

/-- One `button` inside `#slide-dots`: whether its class holds `active`, its
`aria-label`, and the argument its click listener passes to `goToSlide`. -/
structure Dot where
  active : Bool
  ariaLabel : String
  target : Int
  deriving DecidableEq

/-- The `#slide-announcement` element. -/
structure LiveRegion where
  ariaLive : Option String
  ariaAtomic : Option String
  className : String
  textContent : String
  deriving DecidableEq

/-- The parts of the page the controller reads or writes.
`progressWidth` is the number `p` of the last `p%` written to the width of
`#progress` (`none`: nothing written yet); `currentSlideText` and
`totalSlidesText` are the numbers assigned to the two counter elements. -/
structure Document where
  slides : List Slide
  dots : List Dot
  progressWidth : Option JSNum
  currentSlideText : Int
  totalSlidesText : Int
  liveRegion : Option LiveRegion
  scrollX : Int
  scrollY : Int
  deriving DecidableEq

/-- The controller object together with the page it drives. -/
structure State extends Document where
  totalSlides : Int
  currentSlide : Int
  touchStartX : ℚ
  touchEndX : ℚ
  deriving DecidableEq

/-- Result of running a method: it returned (`done`) or threw a `TypeError`
(`thrown`), in either case with the state reached. -/
inductive Outcome where
  | done (s : State)
  | thrown (s : State)
  deriving DecidableEq

/-- The state an outcome ends in. -/
def Outcome.state : Outcome → State
  | .done s => s
  | .thrown s => s

/-- Whether the call returned normally. -/
def Outcome.isDone : Outcome → Bool
  | .done _ => true
  | .thrown _ => false

/-- Sequencing of statements: what follows a `throw` is skipped. -/
def Outcome.andThen (o : Outcome) (f : State → Outcome) : Outcome :=
  match o with
  | .done s => f s
  | .thrown s => .thrown s

/-- Indexing `this.slides[i]`: `none` stands for `undefined`. -/
def slideAt (slides : List Slide) (i : Int) : Option Slide :=
  if i < 0 then none else slides[i.toNat]?

/-- The update `this.slides[i].classList.remove('active')` (`b = false`) or
`.add('active')` (`b = true`); `none` when `this.slides[i]` is `undefined`. -/
def setSlideActive (slides : List Slide) (i : Int) (b : Bool) : Option (List Slide) :=
  match slideAt slides i with
  | none => none
  | some sl => some (slides.set i.toNat { sl with active := b })

/-- Negation of a number. -/
def JSNum.neg : JSNum → JSNum
  | .fin q => .fin (-q)
  | .posInf => .negInf
  | .negInf => .posInf
  | .nan => .nan

/-- `Math.abs(x)`. -/
def JSNum.abs : JSNum → JSNum
  | .fin q => .fin |q|
  | .posInf => .posInf
  | .negInf => .posInf
  | .nan => .nan

/-- The comparison `x > c` with a finite `c`; it is false for NaN. -/
def JSNum.gt (x : JSNum) (c : ℚ) : Bool :=
  match x with
  | .fin q => decide (c < q)
  | .posInf => true
  | .negInf => false
  | .nan => false

/-- The integer nearest to `y`, the even one of the two when `y` lies halfway. -/
def roundHalfEven (y : ℚ) : Int :=
  if y - ⌊y⌋ < 1 / 2 then ⌊y⌋
  else if 1 / 2 < y - ⌊y⌋ then ⌊y⌋ + 1
  else if ⌊y⌋ % 2 = 0 then ⌊y⌋ else ⌊y⌋ + 1

/-- The exponent of the unit in the last place of binary64 at a positive `q`:
53 significant bits in the binade of `q`, and `-1074` in the subnormal range
below `2 ^ (-1022)`. -/
def ulpExponent (q : ℚ) : Int := max (Int.log 2 q - 52) (-1074)

/-- The binary64 value nearest to a positive rational `q` (round to nearest, ties
to even); a result of `2 ^ 1024` or more overflows to `Infinity`. -/
def roundPos (q : ℚ) : JSNum :=
  let r : ℚ := (roundHalfEven (q / 2 ^ ulpExponent q) : ℚ) * 2 ^ ulpExponent q
  if r < 2 ^ (1024 : ℕ) then .fin r else .posInf

/-- The binary64 value nearest to a rational `q`: what an arithmetic operation
returns whose exact result is `q`. -/
def round64 (q : ℚ) : JSNum :=
  if q = 0 then .fin 0
  else if 0 < q then roundPos q
  else (roundPos (-q)).neg

/-- The quotient `a / b` of two integers that binary64 holds exactly, as the
script's `/` computes it. -/
def jsDiv (a b : Int) : JSNum :=
  if b = 0 then
    if 0 < a then .posInf else if a < 0 then .negInf else .nan
  else round64 ((a : ℚ) / (b : ℚ))

/-- The product `x * c` of a number and a positive finite constant, as the
script's `*` computes it. -/
def jsMulPos (x : JSNum) (c : ℚ) : JSNum :=
  match x with
  | .fin q => round64 (q * c)
  | .posInf => .posInf
  | .negInf => .negInf
  | .nan => .nan

/-- The difference `a - b` of two finite binary64 values, as the script's `-`
computes it. -/
def jsSub (a b : ℚ) : JSNum := round64 (a - b)

/-- The unit roundoff of binary64, `2 ^ (-53)`. -/
def unitRoundoff : ℚ := 1 / 2 ^ (53 : ℕ)

/-! ## Methods -/

/-- `updateProgress()`. -/
def updateProgress (s : State) : State :=
  let progress := jsMulPos (jsDiv (s.currentSlide + 1) s.totalSlides) 100
  { s with progressWidth := some progress }

/-- `updateSlideCounter()`. -/
def updateSlideCounter (s : State) : State :=
  { s with currentSlideText := s.currentSlide + 1, totalSlidesText := s.totalSlides }

/-- The loop body of `createSlideIndicators` for `i = 0, …, totalSlides - 1`. -/
def newDot (i : Nat) : Dot :=
  { active := decide (i = 0)
    ariaLabel := "Lompat ke slide " ++ toString (i + 1)
    target := i }

/-- `createSlideIndicators()`: the container is emptied, then one button per
slide number is appended. -/
def createSlideIndicators (s : State) : State :=
  { s with dots := (List.range s.totalSlides.toNat).map newDot }

/-- The `forEach` of `setupAccessibility`, from position `index` on. -/
def labelSlides : Nat → List Slide → List Slide
  | _, [] => []
  | index, sl :: rest =>
    { sl with role := some "region", ariaLabel := some ("Slide " ++ toString (index + 1)) }
      :: labelSlides (index + 1) rest

/-- `setupAccessibility()`. -/
def setupAccessibility (s : State) : State :=
  { s with slides := labelSlides 0 s.slides }

/-- The `forEach` of `updateIndicators`, from position `index` on:
`classList.toggle('active', index === currentSlide)`. -/
def toggleDots (currentSlide : Int) : Nat → List Dot → List Dot
  | _, [] => []
  | index, d :: rest =>
    { d with active := decide ((index : Int) = currentSlide) }
      :: toggleDots currentSlide (index + 1) rest

/-- `updateIndicators()`. -/
def updateIndicators (s : State) : State :=
  { s with dots := toggleDots s.currentSlide 0 s.dots }

/-- The announced title: the slide's title text, or `Slide N` when there is no
title element or its text is empty. -/
def slideTitle (sl : Slide) (currentSlide : Int) : String :=
  match sl.title with
  | some t => if t = "" then "Slide " ++ toString (currentSlide + 1) else t
  | none => "Slide " ++ toString (currentSlide + 1)

/-- `announceSlideChange()`: the live region is created on first use and its
text replaced. -/
def announceSlideChange (s : State) : Outcome :=
  match slideAt s.slides s.currentSlide with
  | none => .thrown s
  | some sl =>
    let text := "Sedang menampilkan: " ++ slideTitle sl s.currentSlide
    let region : LiveRegion :=
      match s.liveRegion with
      | some r => r
      | none =>
        { ariaLive := some "polite", ariaAtomic := some "true",
          className := "sr-only", textContent := "" }
    .done { s with liveRegion := some { region with textContent := text } }

/-- `window.scrollTo(x, y)`. -/
def scrollTo (s : State) (x y : Int) : State :=
  { s with scrollX := x, scrollY := y }

/-- `goToSlide(n)`. -/
def goToSlide (s : State) (n : Int) : Outcome :=
  if n < 0 ∨ n ≥ s.totalSlides then .done s
  else
    match setSlideActive s.slides s.currentSlide false with
    | none => .thrown s
    | some hidden =>
      let s1 : State := { s with slides := hidden, currentSlide := n }
      match setSlideActive s1.slides s1.currentSlide true with
      | none => .thrown s1
      | some shown =>
        let s2 : State := { s1 with slides := shown }
        (announceSlideChange (updateIndicators (updateSlideCounter (updateProgress s2)))).andThen
          fun s3 => .done (scrollTo s3 0 0)

/-- `nextSlide()`. -/
def nextSlide (s : State) : Outcome :=
  if s.currentSlide < s.totalSlides - 1 then goToSlide s (s.currentSlide + 1)
  else .done s

/-- `prevSlide()`. -/
def prevSlide (s : State) : Outcome :=
  if s.currentSlide > 0 then goToSlide s (s.currentSlide - 1)
  else .done s

/-- `handleSwipe()`. -/
def handleSwipe (s : State) : Outcome :=
  let swipeThreshold : ℚ := 50
  let diff := jsSub s.touchStartX s.touchEndX
  if diff.abs.gt swipeThreshold then
    if diff.gt 0 then nextSlide s else prevSlide s
  else .done s

/-- `init()`; `setupEventListeners` only registers the listeners modelled below
and changes nothing. -/
def init (s : State) : State :=
  setupAccessibility (updateProgress (createSlideIndicators (updateSlideCounter s)))

/-- The constructor, run on the loaded page. -/
def constructor (d : Document) : State :=
  init { d with
    totalSlides := d.slides.length
    currentSlide := 0
    touchStartX := 0
    touchEndX := 0 }

/-! ## Event listeners -/

/-- The fields of a keyboard event the `keydown` listener reads. -/
structure KeyEvent where
  key : String
  ctrlKey : Bool
  metaKey : Bool
  deriving DecidableEq

/-- What the `keydown` listener did: the outcome of the navigation call and
whether `e.preventDefault()` was called. -/
structure KeyResult where
  outcome : Outcome
  defaultPrevented : Bool
  deriving DecidableEq

/-- The value of `parseInt(k)` on the strings the `keydown` listener passes to
it, the one-character keys `1` to `9`, where it is the digit (`none` stands for
`NaN`). On longer strings this is the decimal value of an all-digit string and
`NaN` otherwise, which is not the library function: that one also skips leading
blanks, reads a sign, stops at the first non-digit, reads hexadecimal after
`0x`, and rounds to binary64. -/
def parseInt (k : String) : Option Int :=
  if k.toList ≠ [] ∧ k.toList.all Char.isDigit = true then
    some (k.toList.foldl (fun acc c => acc * 10 + ((c.toNat : Int) - 48)) 0)
  else none

/-- The `keydown` listener. -/
def keydown (s : State) (e : KeyEvent) : KeyResult :=
  match e.key with
  | "ArrowRight" | " " | "PageDown" => ⟨nextSlide s, true⟩
  | "ArrowLeft" | "PageUp" => ⟨prevSlide s, true⟩
  | "Home" => ⟨goToSlide s 0, true⟩
  | "End" => ⟨goToSlide s (s.totalSlides - 1), true⟩
  | "1" | "2" | "3" | "4" | "5" | "6" | "7" | "8" | "9" =>
    if e.ctrlKey || e.metaKey then
      match parseInt e.key with
      | some k =>
        let slideNum := k - 1
        if slideNum < s.totalSlides then ⟨goToSlide s slideNum, true⟩
        else ⟨.done s, true⟩
      | none => ⟨.done s, true⟩
    else ⟨.done s, false⟩
  | _ => ⟨.done s, false⟩

/-- The `key` of the digit key `d`, the one-character string of the digit. -/
def digitKey (d : Nat) : String :=
  String.singleton (Char.ofNat (48 + d))

/-- The keys the listener has a `case` for that does not look at the modifiers. -/
def navigationKeys : List String :=
  ["ArrowRight", " ", "PageDown", "ArrowLeft", "PageUp", "Home", "End"]

/-- The keys of the digit `case`. -/
def digitKeys : List String :=
  ["1", "2", "3", "4", "5", "6", "7", "8", "9"]

/-- The `touchstart` listener, `x` being `e.changedTouches[0].screenX`. -/
def touchstart (s : State) (x : ℚ) : State :=
  { s with touchStartX := x }

/-- The `touchend` listener, `x` being `e.changedTouches[0].screenX`. -/
def touchend (s : State) (x : ℚ) : Outcome :=
  handleSwipe { s with touchEndX := x }

/-- The state in which `handleSwipe` runs after a touch from `startX` to `endX`:
both listeners have stored their coordinate. -/
def recorded (s : State) (startX endX : ℚ) : State :=
  { touchstart s startX with touchEndX := endX }

/-- The click listener of the `i`-th indicator button. -/
def clickDot (s : State) (i : Nat) : Outcome :=
  match s.dots[i]? with
  | some d => goToSlide s d.target
  | none => .done s

/-- Whatever can happen to a constructed controller: a listener fires or one of
the navigation methods is called. -/
inductive Action where
  | goTo (n : Int)
  | next
  | prev
  | swipe
  | key (e : KeyEvent)
  | touchStart (x : ℚ)
  | touchEnd (x : ℚ)
  | dot (i : Nat)
  | resize

/-- One action on a state. -/
def step (s : State) : Action → Outcome
  | .goTo n => goToSlide s n
  | .next => nextSlide s
  | .prev => prevSlide s
  | .swipe => handleSwipe s
  | .key e => (keydown s e).outcome
  | .touchStart x => .done (touchstart s x)
  | .touchEnd x => touchend s x
  | .dot i => clickDot s i
  | .resize => .done (updateProgress s)

/-- The state after a finite sequence of actions; an uncaught `TypeError` ends
the listener that threw and the page goes on from the state reached. -/
def run (s : State) : List Action → State
  | [] => s
  | a :: rest => run (step s a).state rest

/-! ## State predicates -/

/-- The data-model invariant of a controller: `totalSlides` is the length of the
slide list, there is one indicator per slide, and `currentSlide` indexes a
slide, or the deck is empty and `currentSlide` is the `0` the constructor
wrote. -/
def ControllerState (s : State) : Prop :=
  s.totalSlides = s.slides.length ∧ s.dots.length = s.slides.length ∧
    ((0 ≤ s.currentSlide ∧ s.currentSlide < s.totalSlides) ∨
      (s.totalSlides = 0 ∧ s.currentSlide = 0))

instance (s : State) : Decidable (ControllerState s) := by
  unfold ControllerState; infer_instance

/-- No slide other than the current one carries the `active` marker. -/
def OthersInactive (s : State) : Prop :=
  ∀ i : Nat, ∀ h : i < s.slides.length, (i : Int) ≠ s.currentSlide → (s.slides[i]).active = false

instance (s : State) : Decidable (OthersInactive s) := by
  unfold OthersInactive; infer_instance

/-- The list of marker bits of the slides. -/
def slideMarkers (s : State) : List Bool := s.slides.map Slide.active

/-- The list of marker bits of the indicators. -/
def dotMarkers (s : State) : List Bool := s.dots.map Dot.active

/-! ## Sample pages -/

/-- A slide as found in a page before the controller has run. -/
def plainSlide (active : Bool) (title : Option String) : Slide :=
  { active := active, title := title, role := none, ariaLabel := none }

/-- A page with the given slides and nothing written yet. -/
def pageOf (slides : List Slide) : Document :=
  { slides := slides, dots := [], progressWidth := none, currentSlideText := 0,
    totalSlidesText := 0, liveRegion := none, scrollX := 0, scrollY := 0 }

/-- A five-slide deck whose first slide is shown. -/
def deck5 : State :=
  constructor (pageOf [plainSlide true (some "Thaharah"), plainSlide false none,
    plainSlide false (some ""), plainSlide false (some "Zakat"), plainSlide false none])


/-- A twenty-slide deck whose first slide is shown. -/
def deck20 : State :=
  constructor (pageOf (plainSlide true none :: List.replicate 19 (plainSlide false none)))

/-! ## Binary64 rounding -/

theorem roundHalfEven_sub_abs_le (y : ℚ) : |(roundHalfEven y : ℚ) - y| ≤ 1 / 2 := by
  have h1 := Int.floor_le y
  have h2 := Int.lt_floor_add_one y
  unfold roundHalfEven
  rw [abs_le]
  split_ifs <;> push_cast <;> constructor <;> linarith

theorem le_roundHalfEven (y : ℚ) (k : Int) (h : (k : ℚ) ≤ y) : k ≤ roundHalfEven y := by
  have hk : k ≤ ⌊y⌋ := Int.le_floor.mpr h
  unfold roundHalfEven
  split_ifs <;> omega

theorem roundHalfEven_le (y : ℚ) (k : Int) (h : y ≤ (k : ℚ)) : roundHalfEven y ≤ k := by
  rcases eq_or_lt_of_le h with heq | hlt
  · subst heq
    unfold roundHalfEven
    simp
  · have hk : ⌊y⌋ < k := Int.floor_lt.mpr hlt
    unfold roundHalfEven
    split_ifs <;> omega

theorem two_zpow_pos (k : Int) : (0 : ℚ) < 2 ^ k := zpow_pos (by norm_num) k

theorem log_le_self (q : ℚ) (hq : 0 < q) : (2 : ℚ) ^ Int.log 2 q ≤ q := by
  have := Int.zpow_log_le_self (b := 2) (r := q) (by norm_num) hq
  simpa using this

theorem le_log_of_le (q : ℚ) (hq : 0 < q) (k : Int) (h : (2 : ℚ) ^ k ≤ q) : k ≤ Int.log 2 q := by
  have := (Int.zpow_le_iff_le_log (b := 2) (by norm_num) (x := k) hq).mp (by simpa using h)
  exact this

theorem log_lt_of_lt (q : ℚ) (hq : 0 < q) (k : Int) (h : q < (2 : ℚ) ^ k) : Int.log 2 q < k := by
  have := (Int.lt_zpow_iff_log_lt (b := 2) (by norm_num) (x := k) hq).mp (by simpa using h)
  exact this


theorem ulpExponent_normal (q : ℚ) (hq : 0 < q) (hlo : (2 : ℚ) ^ (-1022 : ℤ) ≤ q) :
    ulpExponent q = Int.log 2 q - 52 := by
  have := le_log_of_le q hq (-1022) hlo
  unfold ulpExponent
  exact max_eq_left (by omega)

theorem roundPos_normal (q : ℚ) (hq : 0 < q) (hlo : (2 : ℚ) ^ (-1022 : ℤ) ≤ q)
    (hhi : q < 2 ^ (1023 : ℕ)) :
    ∃ r, roundPos q = .fin r ∧ |r - q| ≤ q / 2 ^ (53 : ℕ) := by
  have he := ulpExponent_normal q hq hlo
  have hpos := two_zpow_pos (ulpExponent q)
  have hle : (2 : ℚ) ^ ulpExponent q * 2 ^ (52 : ℕ) ≤ q := by
    have h1 := log_le_self q hq
    have h2 : (2 : ℚ) ^ Int.log 2 q = 2 ^ ulpExponent q * 2 ^ (52 : ℕ) := by
      rw [he, ← zpow_natCast, ← zpow_add₀ (by norm_num)]
      congr 1
      omega
    rwa [h2] at h1
  have hm := roundHalfEven_sub_abs_le (q / 2 ^ ulpExponent q)
  have hdiff : (roundHalfEven (q / 2 ^ ulpExponent q) : ℚ) * 2 ^ ulpExponent q - q =
      ((roundHalfEven (q / 2 ^ ulpExponent q) : ℚ) - q / 2 ^ ulpExponent q) *
        2 ^ ulpExponent q := by
    field_simp
  have habs : |(roundHalfEven (q / 2 ^ ulpExponent q) : ℚ) * 2 ^ ulpExponent q - q| ≤
      q / 2 ^ (53 : ℕ) := by
    rw [hdiff, abs_mul, abs_of_pos hpos]
    calc |(roundHalfEven (q / 2 ^ ulpExponent q) : ℚ) - q / 2 ^ ulpExponent q| *
          2 ^ ulpExponent q
        ≤ 1 / 2 * 2 ^ ulpExponent q := mul_le_mul_of_nonneg_right hm hpos.le
      _ ≤ q / 2 ^ (53 : ℕ) := by
        rw [le_div_iff₀ (by positivity)]
        have : (2 : ℚ) ^ (53 : ℕ) = 2 * 2 ^ (52 : ℕ) := by norm_num
        rw [this]
        linarith
  refine ⟨_, ?_, habs⟩
  unfold roundPos
  simp only
  rw [if_pos]
  have h3 := (abs_le.mp habs).2
  have h4 : q / 2 ^ (53 : ℕ) ≤ q := div_le_self hq.le (by norm_num)
  have h5 : (2 : ℚ) ^ (1024 : ℕ) = 2 * 2 ^ (1023 : ℕ) := by norm_num
  rw [h5]
  linarith


theorem round64_of_pos (q : ℚ) (hq : 0 < q) : round64 q = roundPos q := by
  unfold round64
  rw [if_neg hq.ne', if_pos hq]

theorem progress_value (a b : Int) (ha : 1 ≤ a) (hab : a ≤ b) (hb : b ≤ 2 ^ (53 : ℕ)) :
    ∃ w, jsMulPos (jsDiv a b) 100 = .fin w ∧
      |w - (a : ℚ) / (b : ℚ) * 100| ≤
        (a : ℚ) / (b : ℚ) * 100 * (2 * unitRoundoff + unitRoundoff ^ 2) := by
  have hbpos : (0 : ℚ) < b := by exact_mod_cast (by omega : (0 : Int) < b)
  have hapos : (1 : ℚ) ≤ a := by exact_mod_cast ha
  have hab' : (a : ℚ) ≤ b := by exact_mod_cast hab
  have hb' : (b : ℚ) ≤ 2 ^ (53 : ℕ) := by exact_mod_cast hb
  have hx : (0 : ℚ) < (a : ℚ) / b := by positivity
  have hx1 : (a : ℚ) / b ≤ 1 := (div_le_one hbpos).mpr hab'
  have hx0 : (1 : ℚ) / 2 ^ (53 : ℕ) ≤ (a : ℚ) / b := by
    rw [div_le_div_iff₀ (by positivity) hbpos]
    nlinarith
  obtain ⟨x, hxr, hxe⟩ := roundPos_normal ((a : ℚ) / b) hx
    (le_trans (by norm_num) hx0) (lt_of_le_of_lt hx1 (by norm_num))
  have hxe' := abs_le.mp hxe
  have hu : (0 : ℚ) < 1 / 2 ^ (53 : ℕ) := by positivity
  have hdiv : (a : ℚ) / b / 2 ^ (53 : ℕ) = (a : ℚ) / b * (1 / 2 ^ (53 : ℕ)) := by ring
  rw [hdiv] at hxe'
  have hxlo : (1 : ℚ) / 2 ^ (54 : ℕ) ≤ x := by
    have : (1 : ℚ) / 2 ^ (53 : ℕ) * (1 - 1 / 2 ^ (53 : ℕ)) ≤ x := by nlinarith [hxe'.1]
    exact le_trans (by norm_num) this
  have hxpos : (0 : ℚ) < x := lt_of_lt_of_le (by positivity) hxlo
  have hxhi : x ≤ 2 := by nlinarith [hxe'.2]
  obtain ⟨w, hwr, hwe⟩ := roundPos_normal (x * 100) (by positivity)
    (le_trans (by norm_num) (by linarith : (1 : ℚ) / 2 ^ (54 : ℕ) * 100 ≤ x * 100))
    (lt_of_le_of_lt (by linarith : x * 100 ≤ 200) (by norm_num))
  refine ⟨w, ?_, ?_⟩
  · unfold jsDiv
    rw [if_neg (by omega), round64_of_pos _ hx, hxr]
    simp only [jsMulPos]
    rw [round64_of_pos _ (by positivity), hwr]
  · have hwe' := abs_le.mp hwe
    have hdiv2 : x * 100 / 2 ^ (53 : ℕ) = x * 100 * (1 / 2 ^ (53 : ℕ)) := by ring
    rw [hdiv2] at hwe'
    unfold unitRoundoff
    rw [abs_le]
    constructor <;> nlinarith [hwe'.1, hwe'.2, hxe'.1, hxe'.2]


theorem ulpExponent_le (q : ℚ) (hq : 0 < q) (h : q ≤ 50) : ulpExponent q ≤ -47 := by
  have := log_lt_of_lt q hq 6 (lt_of_le_of_lt h (by norm_num))
  unfold ulpExponent
  exact max_le (by omega) (by norm_num)

theorem roundPos_le_fifty (q : ℚ) (hq : 0 < q) (h : q ≤ 50) :
    ∃ r, roundPos q = .fin r ∧ 0 ≤ r ∧ r ≤ 50 := by
  have he := ulpExponent_le q hq h
  have hpos := two_zpow_pos (ulpExponent q)
  obtain ⟨n, hn⟩ : ∃ n : ℕ, ulpExponent q = -(n : ℤ) := ⟨(-ulpExponent q).toNat, by omega⟩
  have hpow : (2 : ℚ) ^ ulpExponent q = ((2 : ℚ) ^ n)⁻¹ := by
    rw [hn, zpow_neg, zpow_natCast]
  have hn0 : (0 : ℚ) < 2 ^ n := by positivity
  have hy : q / 2 ^ ulpExponent q ≤ (((50 * 2 ^ n : ℕ) : ℤ) : ℚ) := by
    rw [hpow, div_inv_eq_mul]
    push_cast
    exact mul_le_mul_of_nonneg_right h hn0.le
  have hup := roundHalfEven_le _ _ hy
  have hlow : (0 : ℤ) ≤ roundHalfEven (q / 2 ^ ulpExponent q) :=
    le_roundHalfEven _ 0 (by simpa using (div_pos hq hpos).le)
  have hup' : (roundHalfEven (q / 2 ^ ulpExponent q) : ℚ) ≤ 50 * 2 ^ n := by
    have : ((roundHalfEven (q / 2 ^ ulpExponent q) : ℤ) : ℚ) ≤ (((50 * 2 ^ n : ℕ) : ℤ) : ℚ) := by
      exact_mod_cast hup
    simpa using this
  have hlow' : (0 : ℚ) ≤ (roundHalfEven (q / 2 ^ ulpExponent q) : ℚ) := by exact_mod_cast hlow
  have hr50 : (roundHalfEven (q / 2 ^ ulpExponent q) : ℚ) * 2 ^ ulpExponent q ≤ 50 := by
    generalize roundHalfEven (q / 2 ^ ulpExponent q) = m at hup'
    rw [hpow, ← div_eq_mul_inv, div_le_iff₀ hn0]
    exact hup'
  refine ⟨_, ?_, mul_nonneg hlow' hpos.le, hr50⟩
  unfold roundPos
  simp only
  rw [if_pos (lt_of_le_of_lt hr50 (by norm_num))]

theorem roundPos_gt_fifty (q : ℚ) (h : 50 + 1 / 2 ^ (47 : ℕ) ≤ q) :
    (roundPos q).gt 50 = true := by
  have hq : 0 < q := lt_of_lt_of_le (by norm_num) h
  have hL : 5 ≤ Int.log 2 q := le_log_of_le q hq 5 (le_trans (by norm_num) h)
  have he : ulpExponent q = Int.log 2 q - 52 := by
    unfold ulpExponent
    exact max_eq_left (by omega)
  have hpos := two_zpow_pos (ulpExponent q)
  unfold roundPos
  simp only
  split
  · simp only [JSNum.gt, decide_eq_true_eq]
    rcases eq_or_lt_of_le hL with h5 | h6
    · have he47 : ulpExponent q = -((47 : ℕ) : ℤ) := by rw [he, ← h5]; norm_num
      have hpow : (2 : ℚ) ^ ulpExponent q = ((2 : ℚ) ^ (47 : ℕ))⁻¹ := by
        rw [he47, zpow_neg, zpow_natCast]
      have hy : ((7036874417766401 : ℤ) : ℚ) ≤ q / 2 ^ ulpExponent q := by
        rw [hpow, div_inv_eq_mul]
        have := mul_le_mul_of_nonneg_right h (by positivity : (0 : ℚ) ≤ 2 ^ (47 : ℕ))
        norm_num at this ⊢
        linarith
      have hm := le_roundHalfEven _ _ hy
      have hm' : (7036874417766401 : ℚ) ≤ (roundHalfEven (q / 2 ^ ulpExponent q) : ℚ) := by
        exact_mod_cast hm
      generalize roundHalfEven (q / 2 ^ ulpExponent q) = m at hm'
      rw [hpow, ← div_eq_mul_inv, lt_div_iff₀ (by positivity)]
      norm_num
      linarith
    · have h2L : (2 : ℚ) ^ Int.log 2 q = 2 ^ ulpExponent q * 2 ^ (52 : ℕ) := by
        rw [he, ← zpow_natCast, ← zpow_add₀ (by norm_num)]
        congr 1
        omega
      have hy : (((2 ^ 52 : ℕ) : ℤ) : ℚ) ≤ q / 2 ^ ulpExponent q := by
        rw [le_div_iff₀ hpos]
        push_cast
        have := log_le_self q hq
        rw [h2L] at this
        linarith
      have hm := le_roundHalfEven _ _ hy
      have hm' : (2 : ℚ) ^ (52 : ℕ) ≤ (roundHalfEven (q / 2 ^ ulpExponent q) : ℚ) := by
        have : ((((2 ^ 52 : ℕ) : ℤ)) : ℚ) ≤
            ((roundHalfEven (q / 2 ^ ulpExponent q) : ℤ) : ℚ) := by exact_mod_cast hm
        simpa using this
      have h64 : (2 : ℚ) ^ (6 : ℤ) ≤ 2 ^ Int.log 2 q :=
        zpow_le_zpow_right₀ (by norm_num) (by omega)
      rw [h2L] at h64
      have := mul_le_mul_of_nonneg_right hm' hpos.le
      have h6 : (2 : ℚ) ^ (6 : ℤ) = 64 := by norm_num
      rw [h6] at h64
      linarith
  · rfl

theorem roundHalfEven_eq (y : ℚ) (m : Int) (h : |y - (m : ℚ)| < 1 / 2) :
    roundHalfEven y = m := by
  have h1 := abs_le.mp (roundHalfEven_sub_abs_le y)
  have h2 := abs_lt.mp h
  have hlt : ((roundHalfEven y : ℤ) : ℚ) < ((m + 1 : ℤ) : ℚ) := by push_cast; linarith
  have hgt : ((m - 1 : ℤ) : ℚ) < ((roundHalfEven y : ℤ) : ℚ) := by push_cast; linarith
  have hlt' : roundHalfEven y < m + 1 := by exact_mod_cast hlt
  have hgt' : m - 1 < roundHalfEven y := by exact_mod_cast hgt
  omega

theorem roundPos_eq (q : ℚ) (L m : Int) (hq : 0 < q) (h1 : (2 : ℚ) ^ L ≤ q)
    (h2 : q < (2 : ℚ) ^ (L + 1)) (hL : -1022 ≤ L)
    (hm : |q / 2 ^ (L - 52) - (m : ℚ)| < 1 / 2)
    (hlt : (m : ℚ) * 2 ^ (L - 52) < 2 ^ (1024 : ℕ)) :
    roundPos q = .fin ((m : ℚ) * 2 ^ (L - 52)) := by
  have hlog : Int.log 2 q = L := by
    have := le_log_of_le q hq L h1
    have := log_lt_of_lt q hq (L + 1) h2
    omega
  have he : ulpExponent q = L - 52 := by
    unfold ulpExponent
    rw [hlog]
    exact max_eq_left (by omega)
  unfold roundPos
  simp only
  rw [he, roundHalfEven_eq _ m hm, if_pos hlt]

theorem jsSub_of_abs_le (a b : ℚ) (h : |a - b| ≤ 50) :
    ∃ d, jsSub a b = .fin d ∧ |d| ≤ 50 := by
  obtain ⟨hlo, hhi⟩ := abs_le.mp h
  unfold jsSub round64
  split
  · exact ⟨0, rfl, by norm_num⟩
  · split
    · rename_i hpos
      obtain ⟨r, hr, h0, h50⟩ := roundPos_le_fifty (a - b) hpos hhi
      exact ⟨r, hr, abs_le.mpr ⟨by linarith, h50⟩⟩
    · rename_i hne hnp
      have hneg : 0 < -(a - b) := by
        rcases lt_trichotomy (a - b) 0 with h1 | h1 | h1
        · linarith
        · exact absurd h1 hne
        · exact absurd h1 hnp
      obtain ⟨r, hr, h0, h50⟩ := roundPos_le_fifty (-(a - b)) hneg (by linarith)
      refine ⟨-r, ?_, abs_le.mpr ⟨by linarith, by linarith⟩⟩
      rw [hr]
      rfl

theorem jsSub_of_ge (a b : ℚ) (h : 50 + 1 / 2 ^ (47 : ℕ) ≤ a - b) :
    (jsSub a b).gt 50 = true := by
  have hpos : 0 < a - b := lt_of_lt_of_le (by norm_num) h
  unfold jsSub
  rw [round64_of_pos _ hpos]
  exact roundPos_gt_fifty _ h

theorem jsSub_of_le (a b : ℚ) (h : a - b ≤ -(50 + 1 / 2 ^ (47 : ℕ))) :
    ∃ x : JSNum, jsSub a b = x.neg ∧ x.gt 50 = true := by
  have hneg : a - b < 0 := lt_of_le_of_lt h (by norm_num)
  have hge : 50 + 1 / 2 ^ (47 : ℕ) ≤ -(a - b) := by linarith
  refine ⟨roundPos (-(a - b)), ?_, roundPos_gt_fifty _ hge⟩
  unfold jsSub round64
  rw [if_neg hneg.ne, if_neg (not_lt.mpr hneg.le)]

theorem gt_fifty_forward (x : JSNum) (h : x.gt 50 = true) :
    x.abs.gt 50 = true ∧ x.gt 0 = true := by
  cases x with
  | fin q =>
    simp only [JSNum.gt, JSNum.abs, decide_eq_true_eq] at h ⊢
    exact ⟨lt_of_lt_of_le h (le_abs_self q), by linarith⟩
  | posInf => exact ⟨rfl, rfl⟩
  | negInf => cases h
  | nan => cases h

theorem gt_fifty_backward (x : JSNum) (h : x.gt 50 = true) :
    x.neg.abs.gt 50 = true ∧ x.neg.gt 0 = false := by
  cases x with
  | fin q =>
    simp only [JSNum.gt, JSNum.abs, JSNum.neg, decide_eq_true_eq, decide_eq_false_iff_not,
      abs_neg, not_lt] at h ⊢
    exact ⟨lt_of_lt_of_le h (le_abs_self q), by linarith⟩
  | posInf => exact ⟨rfl, rfl⟩
  | negInf => cases h
  | nan => cases h

theorem progress_eq (a b L m K w : Int) (hb : b ≠ 0) (hq : 0 < (a : ℚ) / b)
    (h1 : (2 : ℚ) ^ L ≤ (a : ℚ) / b) (h2 : (a : ℚ) / b < (2 : ℚ) ^ (L + 1)) (hL : -1022 ≤ L)
    (hm : |(a : ℚ) / b / 2 ^ (L - 52) - (m : ℚ)| < 1 / 2)
    (hlt : (m : ℚ) * 2 ^ (L - 52) < 2 ^ (1024 : ℕ))
    (hp : 0 < (m : ℚ) * 2 ^ (L - 52) * 100)
    (k1 : (2 : ℚ) ^ K ≤ (m : ℚ) * 2 ^ (L - 52) * 100)
    (k2 : (m : ℚ) * 2 ^ (L - 52) * 100 < (2 : ℚ) ^ (K + 1)) (hK : -1022 ≤ K)
    (hw : |(m : ℚ) * 2 ^ (L - 52) * 100 / 2 ^ (K - 52) - (w : ℚ)| < 1 / 2)
    (hwlt : (w : ℚ) * 2 ^ (K - 52) < 2 ^ (1024 : ℕ)) :
    jsMulPos (jsDiv a b) 100 = .fin ((w : ℚ) * 2 ^ (K - 52)) := by
  unfold jsDiv
  rw [if_neg hb, round64_of_pos _ hq, roundPos_eq _ L m hq h1 h2 hL hm hlt]
  simp only [jsMulPos]
  rw [round64_of_pos _ hp, roundPos_eq _ K w hp k1 k2 hK hw hwlt]

theorem progress_of_11_of_20 :
    jsMulPos (jsDiv 11 20) 100 = .fin (55 + 1 / 2 ^ (47 : ℕ)) := by
  rw [progress_eq 11 20 (-1) 4953959590107546 5 7740561859543041 (by norm_num) (by norm_num)
    (by norm_num) (by norm_num) (by norm_num) (by norm_num [abs_lt]) (by norm_num)
    (by norm_num) (by norm_num) (by norm_num) (by norm_num) (by norm_num [abs_lt])
    (by norm_num)]
  norm_num

theorem progress_of_3_of_5 : jsMulPos (jsDiv 3 5) 100 = .fin 60 := by
  rw [progress_eq 3 5 (-1) 5404319552844595 5 8444249301319680 (by norm_num) (by norm_num)
    (by norm_num) (by norm_num) (by norm_num) (by norm_num [abs_lt]) (by norm_num)
    (by norm_num) (by norm_num) (by norm_num) (by norm_num) (by norm_num [abs_lt])
    (by norm_num)]
  norm_num

theorem handleSwipe_forward (s : State) (h : (jsSub s.touchStartX s.touchEndX).gt 50 = true) :
    handleSwipe s = nextSlide s := by
  obtain ⟨h1, h2⟩ := gt_fifty_forward _ h
  simp only [handleSwipe]
  rw [if_pos h1, if_pos h2]

theorem handleSwipe_backward (s : State) (x : JSNum)
    (hx : jsSub s.touchStartX s.touchEndX = x.neg) (h : x.gt 50 = true) :
    handleSwipe s = prevSlide s := by
  obtain ⟨h1, h2⟩ := gt_fifty_backward _ h
  simp only [handleSwipe]
  rw [hx, if_pos h1, if_neg (by simp [h2])]

theorem handleSwipe_still (s : State) (d : ℚ)
    (hd : jsSub s.touchStartX s.touchEndX = .fin d) (h : |d| ≤ 50) :
    handleSwipe s = .done s := by
  simp only [handleSwipe]
  rw [hd, if_neg]
  simp only [JSNum.abs, JSNum.gt, decide_eq_true_eq, not_lt]
  exact h

/-! ## Basic facts about the helpers -/

theorem slideAt_of_valid (slides : List Slide) (i : Int) (h0 : 0 ≤ i)
    (h1 : i < slides.length) :
    ∃ sl, slides[i.toNat]? = some sl ∧ slideAt slides i = some sl := by
  have hlt : i.toNat < slides.length := by omega
  refine ⟨slides[i.toNat], ?_, ?_⟩
  · exact List.getElem?_eq_getElem hlt
  · unfold slideAt
    rw [if_neg (by omega)]
    exact List.getElem?_eq_getElem hlt

theorem setSlideActive_of_valid (slides : List Slide) (i : Int) (b : Bool) (h0 : 0 ≤ i)
    (h1 : i < slides.length) :
    ∃ out, setSlideActive slides i b = some out ∧ out.length = slides.length ∧
      out.map Slide.active = (slides.map Slide.active).set i.toNat b := by
  obtain ⟨sl, _, h⟩ := slideAt_of_valid slides i h0 h1
  refine ⟨slides.set i.toNat { sl with active := b }, ?_, ?_, ?_⟩
  · simp [setSlideActive, h]
  · simp
  · simp [List.map_set]

theorem length_toggleDots (c : Int) (k : Nat) (dots : List Dot) :
    (toggleDots c k dots).length = dots.length := by
  induction dots generalizing k with
  | nil => rfl
  | cons d rest ih => simp [toggleDots, ih]

theorem getElem?_toggleDots (c : Int) (k : Nat) (dots : List Dot) (i : Nat) :
    ((toggleDots c k dots).map Dot.active)[i]? =
      if i < dots.length then some (decide (((k + i : Nat) : Int) = c)) else none := by
  induction dots generalizing k i with
  | nil => simp [toggleDots]
  | cons d rest ih =>
    cases i with
    | zero => simp [toggleDots]
    | succ j =>
      simp only [toggleDots, List.map_cons, List.getElem?_cons_succ, List.length_cons]
      rw [ih (k + 1) j]
      have : k + 1 + j = k + (j + 1) := by omega
      simp [this]

/-! ## What `goToSlide` does -/

theorem goToSlide_out_of_range (s : State) (n : Int) (h : n < 0 ∨ n ≥ s.totalSlides) :
    goToSlide s n = .done s := by
  unfold goToSlide
  rw [if_pos h]

theorem goToSlide_in_range (s : State) (n : Int) (hlen : s.totalSlides = s.slides.length)
    (hc0 : 0 ≤ s.currentSlide) (hc1 : s.currentSlide < s.totalSlides)
    (hn0 : 0 ≤ n) (hn1 : n < s.totalSlides) :
    ∃ t, goToSlide s n = .done t ∧ t.currentSlide = n ∧ t.totalSlides = s.totalSlides ∧
      t.slides.length = s.slides.length ∧
      slideMarkers t = ((slideMarkers s).set s.currentSlide.toNat false).set n.toNat true ∧
      t.dots = toggleDots n 0 s.dots ∧
      t.progressWidth = some (jsMulPos (jsDiv (n + 1) s.totalSlides) 100) ∧
      t.currentSlideText = n + 1 ∧ t.totalSlidesText = s.totalSlides ∧
      t.touchStartX = s.touchStartX ∧ t.touchEndX = s.touchEndX := by
  obtain ⟨hidden, hh, hhlen, hhmap⟩ :=
    setSlideActive_of_valid s.slides s.currentSlide false hc0 (by omega)
  obtain ⟨shown, hs, hslen, hsmap⟩ :=
    setSlideActive_of_valid hidden n true hn0 (by omega)
  obtain ⟨sl, _, hsl⟩ := slideAt_of_valid shown n hn0 (by omega)
  unfold goToSlide
  rw [if_neg (by omega)]
  simp only [hh, hs, announceSlideChange, updateIndicators, updateSlideCounter, updateProgress,
    hsl, Outcome.andThen]
  refine ⟨_, rfl, ?_⟩
  simp [scrollTo, slideMarkers, hslen, hhlen, hsmap, hhmap]

theorem nextSlide_eq_goToSlide (s : State) :
    nextSlide s = goToSlide s (s.currentSlide + 1) := by
  unfold nextSlide
  split
  · rfl
  · exact (goToSlide_out_of_range s _ (Or.inr (by omega))).symm

theorem prevSlide_eq_goToSlide (s : State) :
    prevSlide s = goToSlide s (s.currentSlide - 1) := by
  unfold prevSlide
  split
  · rfl
  · exact (goToSlide_out_of_range s _ (Or.inl (by omega))).symm

theorem handleSwipe_cases (s : State) :
    handleSwipe s = .done s ∨ ∃ n, handleSwipe s = goToSlide s n := by
  unfold handleSwipe
  simp only
  split
  · split
    · exact Or.inr ⟨_, nextSlide_eq_goToSlide s⟩
    · exact Or.inr ⟨_, prevSlide_eq_goToSlide s⟩
  · exact Or.inl rfl

theorem keydown_cases (s : State) (e : KeyEvent) :
    (keydown s e).outcome = .done s ∨ ∃ n, (keydown s e).outcome = goToSlide s n := by
  unfold keydown
  split
  · exact Or.inr ⟨_, nextSlide_eq_goToSlide s⟩
  · exact Or.inr ⟨_, nextSlide_eq_goToSlide s⟩
  · exact Or.inr ⟨_, nextSlide_eq_goToSlide s⟩
  · exact Or.inr ⟨_, prevSlide_eq_goToSlide s⟩
  · exact Or.inr ⟨_, prevSlide_eq_goToSlide s⟩
  · exact Or.inr ⟨_, rfl⟩
  · exact Or.inr ⟨_, rfl⟩
  all_goals
    first
    | exact Or.inl rfl
    | (split
       · split
         · dsimp only
           split
           · exact Or.inr ⟨_, rfl⟩
           · exact Or.inl rfl
         · exact Or.inl rfl
       · exact Or.inl rfl)

/-! ## The invariant -/

theorem controllerState_goToSlide (s : State) (n : Int) (h : ControllerState s) :
    ∃ t, goToSlide s n = .done t ∧ ControllerState t ∧ t.totalSlides = s.totalSlides := by
  obtain ⟨hlen, hdots, hcur⟩ := h
  by_cases hn : n < 0 ∨ n ≥ s.totalSlides
  · exact ⟨s, goToSlide_out_of_range s n hn, ⟨hlen, hdots, hcur⟩, rfl⟩
  · have hn0 : 0 ≤ n := by omega
    have hn1 : n < s.totalSlides := by omega
    have hc : 0 ≤ s.currentSlide ∧ s.currentSlide < s.totalSlides := by omega
    obtain ⟨t, ht, hcur', htot, hl, _, hd, _⟩ :=
      goToSlide_in_range s n hlen hc.1 hc.2 hn0 hn1
    refine ⟨t, ht, ⟨?_, ?_, Or.inl ?_⟩, htot⟩
    · rw [htot, hl]; exact hlen
    · rw [hd, length_toggleDots, hl]; exact hdots
    · rw [hcur', htot]; exact ⟨hn0, hn1⟩

theorem controllerState_step (s : State) (a : Action) (h : ControllerState s) :
    ∃ t, step s a = .done t ∧ ControllerState t ∧ t.totalSlides = s.totalSlides := by
  cases a with
  | goTo n => exact controllerState_goToSlide s n h
  | next =>
    show ∃ t, nextSlide s = _ ∧ _
    rw [nextSlide_eq_goToSlide]; exact controllerState_goToSlide s _ h
  | prev =>
    show ∃ t, prevSlide s = _ ∧ _
    rw [prevSlide_eq_goToSlide]; exact controllerState_goToSlide s _ h
  | swipe =>
    show ∃ t, handleSwipe s = _ ∧ _
    rcases handleSwipe_cases s with h1 | ⟨n, h1⟩
    · exact ⟨s, h1, h, rfl⟩
    · rw [h1]; exact controllerState_goToSlide s n h
  | key e =>
    show ∃ t, (keydown s e).outcome = _ ∧ _
    rcases keydown_cases s e with h1 | ⟨n, h1⟩
    · exact ⟨s, h1, h, rfl⟩
    · rw [h1]; exact controllerState_goToSlide s n h
  | touchStart x => exact ⟨_, rfl, h, rfl⟩
  | touchEnd x =>
    show ∃ t, handleSwipe { s with touchEndX := x } = _ ∧ _
    have h2 : ControllerState { s with touchEndX := x } := h
    rcases handleSwipe_cases { s with touchEndX := x } with h1 | ⟨n, h1⟩
    · exact ⟨_, h1, h2, rfl⟩
    · rw [h1]; exact controllerState_goToSlide _ n h2
  | dot i =>
    show ∃ t, clickDot s i = _ ∧ _
    unfold clickDot
    split
    · exact controllerState_goToSlide s _ h
    · exact ⟨s, rfl, h, rfl⟩
  | resize => exact ⟨_, rfl, h, rfl⟩

theorem length_labelSlides (k : Nat) (slides : List Slide) :
    (labelSlides k slides).length = slides.length := by
  induction slides generalizing k with
  | nil => rfl
  | cons d rest ih => simp [labelSlides, ih]

theorem controllerState_constructor (d : Document) :
    ControllerState (constructor d) ∧ (constructor d).currentSlide = 0 ∧
      (constructor d).totalSlides = d.slides.length := by
  refine ⟨⟨?_, ?_, ?_⟩, rfl, rfl⟩
  · simp [constructor, init, setupAccessibility, updateProgress, createSlideIndicators,
      updateSlideCounter, length_labelSlides]
  · simp [constructor, init, setupAccessibility, updateProgress, createSlideIndicators,
      updateSlideCounter, length_labelSlides]
  · show (0 ≤ (0 : Int) ∧ (0 : Int) < d.slides.length) ∨ ((d.slides.length : Int) = 0 ∧ (0 : Int) = 0)
    omega

theorem controllerState_run (s : State) (as : List Action) (h : ControllerState s) :
    ControllerState (run s as) ∧ (run s as).totalSlides = s.totalSlides := by
  induction as generalizing s with
  | nil => exact ⟨h, rfl⟩
  | cons a rest ih =>
    obtain ⟨t, ht, hc, htot⟩ := controllerState_step s a h
    have hr := ih t hc
    simp only [run, ht, Outcome.state]
    exact ⟨hr.1, hr.2.trans htot⟩

/-! ## Markers -/

theorem othersInactive_markers (s : State) (h : OthersInactive s) (i : Nat)
    (hi : (slideMarkers s)[i]? = some true) : (i : Int) = s.currentSlide := by
  by_contra hne
  unfold slideMarkers at hi
  rw [List.getElem?_map] at hi
  cases hget : s.slides[i]? with
  | none => simp [hget] at hi
  | some sl =>
    obtain ⟨hlt, heq⟩ := List.getElem?_eq_some_iff.mp hget
    have hfalse := h i hlt hne
    rw [heq] at hfalse
    simp [hget, hfalse] at hi

theorem markers_after_move (m : List Bool) (c k i : Nat) (hk : k < m.length)
    (hm : m[i]? = some true → i = c) :
    (((m.set c false).set k true)[i]? = some true ↔ i = k) := by
  rw [List.getElem?_set]
  by_cases hik : k = i
  · subst hik
    simp [hk]
  · rw [if_neg hik, List.getElem?_set]
    by_cases hic : c = i
    · subst hic
      simp only [if_true]
      constructor
      · intro h; split at h <;> simp at h
      · intro h; exact absurd h.symm hik
    · rw [if_neg hic]
      constructor
      · intro h; exact absurd (hm h).symm hic
      · intro h; exact absurd h.symm hik

/-! ## Keys -/

theorem digitKey_values :
    digitKey 1 = "1" ∧ digitKey 2 = "2" ∧ digitKey 3 = "3" ∧ digitKey 4 = "4" ∧
      digitKey 5 = "5" ∧ digitKey 6 = "6" ∧ digitKey 7 = "7" ∧ digitKey 8 = "8" ∧
      digitKey 9 = "9" := by
  decide

/-! ## Claims -/

/-- C1. A target outside `[0, totalSlides - 1]` is silently ignored: `goToSlide`
returns without throwing and the whole state is the one it started from (index,
markers on slides and indicators, progress width, counter and announcement
included). -/
theorem C1_goToSlide_out_of_range_is_noop (s : State) (n : Int)
    (h : n < 0 ∨ n ≥ s.totalSlides) : goToSlide s n = Outcome.done s :=
  goToSlide_out_of_range s n h

/-- C1 on the five-slide deck: the targets `7` and `-1` are ignored. -/
theorem C1_witness :
    (((7 : Int) < 0 ∨ (7 : Int) ≥ deck5.totalSlides) ∧ goToSlide deck5 7 = Outcome.done deck5) ∧
    (((-1 : Int) < 0 ∨ (-1 : Int) ≥ deck5.totalSlides) ∧
      goToSlide deck5 (-1) = Outcome.done deck5) :=
  ⟨⟨by decide, C1_goToSlide_out_of_range_is_noop deck5 7 (by decide)⟩,
   ⟨by decide, C1_goToSlide_out_of_range_is_noop deck5 (-1) (by decide)⟩⟩

/-- C2, as stated, fails on a page without slides: the constructor writes index
`0` while the slide count is `0`, so the index is not below the count. -/
theorem C2_counterexample :
    (constructor (pageOf [])).totalSlides = 0 ∧ (constructor (pageOf [])).currentSlide = 0 ∧
      ¬ ((constructor (pageOf [])).currentSlide < (constructor (pageOf [])).totalSlides) := by
  decide

/-- C2, amended. On a page with at least one slide the constructor starts at
index `0`, and after any finite sequence of actions (calls of `goToSlide` with
any integer, `nextSlide`, `prevSlide`, swipes, touches, keys, indicator clicks,
resizes) the slide count is still the number of slides of the page and the index
satisfies `0 ≤ currentSlide < totalSlides`. -/
theorem C2_index_always_valid (d : Document) (as : List Action) (h : 1 ≤ d.slides.length) :
    (constructor d).currentSlide = 0 ∧
      (run (constructor d) as).totalSlides = d.slides.length ∧
      0 ≤ (run (constructor d) as).currentSlide ∧
      (run (constructor d) as).currentSlide < (run (constructor d) as).totalSlides := by
  obtain ⟨hc, h0, htot⟩ := controllerState_constructor d
  obtain ⟨⟨_, _, hcur⟩, hrun⟩ := controllerState_run (constructor d) as hc
  refine ⟨h0, hrun.trans htot, ?_⟩
  have : (run (constructor d) as).totalSlides ≠ 0 := by
    rw [hrun, htot]; omega
  omega

/-- C2 on a two-slide page after five actions, one of them out of range. -/
theorem C2_witness :
    1 ≤ (pageOf [plainSlide true none, plainSlide false none]).slides.length ∧
      (constructor (pageOf [plainSlide true none, plainSlide false none])).currentSlide = 0 ∧
      (run (constructor (pageOf [plainSlide true none, plainSlide false none]))
        [Action.next, Action.next, Action.goTo 5, Action.prev, Action.prev]).totalSlides =
        (pageOf [plainSlide true none, plainSlide false none]).slides.length ∧
      0 ≤ (run (constructor (pageOf [plainSlide true none, plainSlide false none]))
        [Action.next, Action.next, Action.goTo 5, Action.prev, Action.prev]).currentSlide ∧
      (run (constructor (pageOf [plainSlide true none, plainSlide false none]))
        [Action.next, Action.next, Action.goTo 5, Action.prev, Action.prev]).currentSlide <
      (run (constructor (pageOf [plainSlide true none, plainSlide false none]))
        [Action.next, Action.next, Action.goTo 5, Action.prev, Action.prev]).totalSlides :=
  ⟨by decide, C2_index_always_valid _ _ (by decide)⟩

/-- C3, as stated, fails on a page in which a slide other than the current one
carries the marker: `goToSlide` unmarks only the slide it leaves, so after
`goToSlide(2)` on a three-slide page whose first two slides are marked, slides 1
and 2 are both marked. -/
theorem C3_counterexample :
    ControllerState (constructor (pageOf [plainSlide true none, plainSlide true none,
      plainSlide false none])) ∧
    (goToSlide (constructor (pageOf [plainSlide true none, plainSlide true none,
      plainSlide false none])) 2).isDone = true ∧
    slideMarkers (goToSlide (constructor (pageOf [plainSlide true none, plainSlide true none,
      plainSlide false none])) 2).state = [false, true, true] := by
  decide

/-- C3, amended. In a controller state in which no slide other than the current
one carries the `active` marker, `goToSlide(n)` with `0 ≤ n < totalSlides`
returns, the index is `n`, and slide `i` carries the marker exactly when
`i = n`. -/
theorem C3_exactly_one_active_slide (s : State) (n : Int) (hs : ControllerState s)
    (ho : OthersInactive s) (hn0 : 0 ≤ n) (hn1 : n < s.totalSlides) :
    ∃ t, goToSlide s n = Outcome.done t ∧ t.currentSlide = n ∧
      ∀ i : Nat, ((slideMarkers t)[i]? = some true ↔ (i : Int) = n) := by
  obtain ⟨hlen, _, hcur⟩ := hs
  have hc : 0 ≤ s.currentSlide ∧ s.currentSlide < s.totalSlides := by omega
  obtain ⟨t, ht, hidx, _, _, hmark, _⟩ := goToSlide_in_range s n hlen hc.1 hc.2 hn0 hn1
  refine ⟨t, ht, hidx, fun i => ?_⟩
  rw [hmark]
  have hk : n.toNat < (slideMarkers s).length := by
    simp only [slideMarkers, List.length_map]; omega
  have hm : (slideMarkers s)[i]? = some true → i = s.currentSlide.toNat := by
    intro h
    have := othersInactive_markers s ho i h
    omega
  rw [markers_after_move (slideMarkers s) s.currentSlide.toNat n.toNat i hk hm]
  omega

/-- C3 on the five-slide deck: after `goToSlide(3)` only slide 3 is marked. -/
theorem C3_witness :
    ControllerState deck5 ∧ OthersInactive deck5 ∧ (0 : Int) ≤ 3 ∧ (3 : Int) < deck5.totalSlides ∧
      ∃ t, goToSlide deck5 3 = Outcome.done t ∧ t.currentSlide = 3 ∧
        ∀ i : Nat, ((slideMarkers t)[i]? = some true ↔ (i : Int) = 3) :=
  ⟨by decide, by decide, by decide, by decide,
    C3_exactly_one_active_slide deck5 3 (by decide) (by decide) (by decide) (by decide)⟩

/-- C4. In a controller state with `0 ≤ currentSlide < totalSlides`, `nextSlide`
moves to `currentSlide + 1` below the last slide and changes nothing on the last
slide; `prevSlide` moves to `currentSlide - 1` above the first slide and changes
nothing on the first slide; and each equals `goToSlide` at that target. -/
theorem C4_next_prev_one_step_no_wrap (s : State) (hs : ControllerState s)
    (h0 : 0 ≤ s.currentSlide) (h1 : s.currentSlide < s.totalSlides) :
    (s.currentSlide < s.totalSlides - 1 →
      ∃ t, nextSlide s = Outcome.done t ∧ t.currentSlide = s.currentSlide + 1) ∧
    (s.currentSlide = s.totalSlides - 1 → nextSlide s = Outcome.done s) ∧
    (0 < s.currentSlide →
      ∃ t, prevSlide s = Outcome.done t ∧ t.currentSlide = s.currentSlide - 1) ∧
    (s.currentSlide = 0 → prevSlide s = Outcome.done s) ∧
    nextSlide s = goToSlide s (s.currentSlide + 1) ∧
    prevSlide s = goToSlide s (s.currentSlide - 1) := by
  obtain ⟨hlen, _, _⟩ := hs
  refine ⟨fun h => ?_, fun h => ?_, fun h => ?_, fun h => ?_,
    nextSlide_eq_goToSlide s, prevSlide_eq_goToSlide s⟩
  · obtain ⟨t, ht, hidx, _⟩ :=
      goToSlide_in_range s (s.currentSlide + 1) hlen h0 h1 (by omega) (by omega)
    exact ⟨t, (nextSlide_eq_goToSlide s).trans ht, hidx⟩
  · unfold nextSlide
    rw [if_neg (by omega)]
  · obtain ⟨t, ht, hidx, _⟩ :=
      goToSlide_in_range s (s.currentSlide - 1) hlen h0 h1 (by omega) (by omega)
    exact ⟨t, (prevSlide_eq_goToSlide s).trans ht, hidx⟩
  · unfold prevSlide
    rw [if_neg (by omega)]

/-- C4 on the five-slide deck at index `0`: `nextSlide` reaches index `1`, `prevSlide` changes nothing. -/
theorem C4_witness :
    nextSlide deck5 = goToSlide deck5 1 ∧ prevSlide deck5 = Outcome.done deck5 ∧
      ∃ t, nextSlide deck5 = Outcome.done t ∧ t.currentSlide = 1 :=
  have h := C4_next_prev_one_step_no_wrap deck5 (by decide) (by decide) (by decide)
  ⟨h.2.2.2.2.1, h.2.2.2.1 rfl, h.1 (by decide)⟩

/-- C5, as stated, fails on a twenty-slide deck: `goToSlide(10)` writes the
binary64 result of `((10 + 1) / 20) * 100`, which is `55 + 2 ^ (-47)` (printed
`55.00000000000001`), not the exact rational `55`. -/
theorem C5_counterexample :
    ControllerState deck20 ∧ (0 : Int) ≤ 10 ∧ (10 : Int) < deck20.totalSlides ∧
      (goToSlide deck20 10).isDone = true ∧
      (goToSlide deck20 10).state.progressWidth =
        some (JSNum.fin (55 + 1 / 2 ^ (47 : ℕ))) ∧
      ((10 : ℚ) + 1) / (deck20.totalSlides : ℚ) * 100 = 55 ∧
      (55 + 1 / 2 ^ (47 : ℕ) : ℚ) ≠ 55 := by
  have h20 : deck20.totalSlides = 20 := rfl
  obtain ⟨t, ht, _, _, _, _, _, hp, _⟩ :=
    goToSlide_in_range deck20 10 (by decide) (by decide) (by decide) (by decide) (by decide)
  refine ⟨by decide, by decide, by decide, ?_, ?_, ?_, by norm_num⟩
  · rw [ht]; rfl
  · rw [ht]
    show t.progressWidth = _
    rw [hp, h20]
    exact congrArg some progress_of_11_of_20
  · rw [h20]; norm_num

/-- C5, amended. In a controller state of at most `2 ^ 53` slides,
`goToSlide(n)` with `0 ≤ n < totalSlides` returns with the progress width set
to the binary64 result of `((n + 1) / totalSlides) * 100` (quotient, then
product, each rounded to nearest): a finite number `w` whose distance from the
exact rational `(n + 1) / totalSlides * 100` is at most that rational times
`2 * 2 ^ (-53) + 2 ^ (-106)`; the counter shows `n + 1` and `totalSlides`. -/
theorem C5_progress_and_counter (s : State) (n : Int) (hs : ControllerState s)
    (hbig : s.totalSlides ≤ 2 ^ (53 : ℕ)) (hn0 : 0 ≤ n) (hn1 : n < s.totalSlides) :
    ∃ t w, goToSlide s n = Outcome.done t ∧
      t.progressWidth = some (jsMulPos (jsDiv (n + 1) s.totalSlides) 100) ∧
      jsMulPos (jsDiv (n + 1) s.totalSlides) 100 = JSNum.fin w ∧
      |w - ((n : ℚ) + 1) / (s.totalSlides : ℚ) * 100| ≤
        ((n : ℚ) + 1) / (s.totalSlides : ℚ) * 100 * (2 * unitRoundoff + unitRoundoff ^ 2) ∧
      t.currentSlideText = n + 1 ∧ t.totalSlidesText = s.totalSlides := by
  obtain ⟨hlen, _, hcur⟩ := hs
  have hc : 0 ≤ s.currentSlide ∧ s.currentSlide < s.totalSlides := by omega
  obtain ⟨t, ht, _, _, _, _, _, hp, hct, htt, _⟩ :=
    goToSlide_in_range s n hlen hc.1 hc.2 hn0 hn1
  obtain ⟨w, hw, hbound⟩ := progress_value (n + 1) s.totalSlides (by omega) (by omega) hbig
  refine ⟨t, w, ht, hp, hw, ?_, hct, htt⟩
  have hcast : (((n + 1 : ℤ)) : ℚ) = (n : ℚ) + 1 := by push_cast; ring
  rw [hcast] at hbound
  exact hbound

/-- C5 on the five-slide deck: `goToSlide(2)` gives width exactly `60` percent
and the counter `3` of `5`. -/
theorem C5_witness :
    ControllerState deck5 ∧ deck5.totalSlides ≤ 2 ^ (53 : ℕ) ∧ (0 : Int) ≤ 2 ∧
      (2 : Int) < deck5.totalSlides ∧
      ∃ t, goToSlide deck5 2 = Outcome.done t ∧
        t.progressWidth = some (JSNum.fin 60) ∧
        t.currentSlideText = 3 ∧ t.totalSlidesText = 5 := by
  refine ⟨by decide, by decide, by decide, by decide, ?_⟩
  obtain ⟨t, w, ht, hp, _, _, hc, htot⟩ :=
    C5_progress_and_counter deck5 2 (by decide) (by decide) (by decide) (by decide)
  have h5 : deck5.totalSlides = 5 := rfl
  refine ⟨t, ht, ?_, hc, htot.trans h5⟩
  rw [hp, h5]
  exact congrArg some progress_of_3_of_5

/-- C6. `createSlideIndicators` leaves exactly `totalSlides` indicators of which
only indicator `0` is marked; and in a controller state, whatever markers the
indicators carry, `goToSlide(n)` with `0 ≤ n < totalSlides` returns with the
same number of indicators, indicator `i` being marked exactly when `i = n`. -/
theorem C6_indicators_track_index (s : State) (n : Int) :
    (0 ≤ s.totalSlides →
      ((createSlideIndicators s).dots.length : Int) = s.totalSlides ∧
      ∀ i : Nat, (i : Int) < s.totalSlides →
        (dotMarkers (createSlideIndicators s))[i]? = some (decide (i = 0))) ∧
    (ControllerState s → 0 ≤ n → n < s.totalSlides →
      ∃ t, goToSlide s n = Outcome.done t ∧ (t.dots.length : Int) = s.totalSlides ∧
        ∀ i : Nat, ((dotMarkers t)[i]? = some true ↔ (i : Int) = n)) := by
  constructor
  · intro h0
    constructor
    · simp [createSlideIndicators, h0]
    · intro i hi
      have hlt : i < s.totalSlides.toNat := by omega
      simp [dotMarkers, createSlideIndicators, List.getElem?_map, List.getElem?_range hlt, newDot]
  · intro hs hn0 hn1
    obtain ⟨hlen, hdots, hcur⟩ := hs
    have hc : 0 ≤ s.currentSlide ∧ s.currentSlide < s.totalSlides := by omega
    obtain ⟨t, ht, _, _, _, _, hd, _⟩ := goToSlide_in_range s n hlen hc.1 hc.2 hn0 hn1
    refine ⟨t, ht, ?_, fun i => ?_⟩
    · rw [hd, length_toggleDots]; omega
    · unfold dotMarkers
      rw [hd, getElem?_toggleDots]
      by_cases hi : i < s.dots.length
      · simp [hi]
      · simp only [hi, if_false]
        constructor
        · intro h; cases h
        · intro h; omega

/-- C6 on the five-slide deck: five indicators, the first marked, and after `goToSlide(4)` only indicator 4. -/
theorem C6_witness :
    ((createSlideIndicators deck5).dots.length : Int) = deck5.totalSlides ∧
      dotMarkers (createSlideIndicators deck5) = [true, false, false, false, false] ∧
      ∃ t, goToSlide deck5 4 = Outcome.done t ∧ (t.dots.length : Int) = deck5.totalSlides ∧
        ∀ i : Nat, ((dotMarkers t)[i]? = some true ↔ (i : Int) = 4) :=
  ⟨((C6_indicators_track_index deck5 4).1 (by decide)).1, by decide,
    (C6_indicators_track_index deck5 4).2 (by decide) (by decide) (by decide)⟩

/-- C7. After a touch from `startX` to `endX` (any two finite coordinates),
`handleSwipe` runs on the recorded state with `diff` the binary64 difference
`startX - endX`. It is `nextSlide` when `diff > 50` (an overflow to `Infinity`
included), `prevSlide` when `diff < -50`, and returns the state as it is when
`|diff| ≤ 50`, the value `50` included. In terms of the exact difference: it is
`nextSlide` from `50 + 2 ^ (-47)` (the binary64 value next above `50`) on,
`prevSlide` up to `-(50 + 2 ^ (-47))`, and changes nothing when the exact
`|startX - endX| ≤ 50`. -/
theorem C7_swipe_threshold (s : State) (startX endX : ℚ) :
    touchend (touchstart s startX) endX = handleSwipe (recorded s startX endX) ∧
    (∀ d : ℚ, jsSub startX endX = JSNum.fin d →
      (50 < d → handleSwipe (recorded s startX endX) = nextSlide (recorded s startX endX)) ∧
      (d < -50 → handleSwipe (recorded s startX endX) = prevSlide (recorded s startX endX)) ∧
      (|d| ≤ 50 →
        handleSwipe (recorded s startX endX) = Outcome.done (recorded s startX endX))) ∧
    (jsSub startX endX = JSNum.posInf →
      handleSwipe (recorded s startX endX) = nextSlide (recorded s startX endX)) ∧
    (jsSub startX endX = JSNum.negInf →
      handleSwipe (recorded s startX endX) = prevSlide (recorded s startX endX)) ∧
    (50 + 1 / 2 ^ (47 : ℕ) ≤ startX - endX →
      handleSwipe (recorded s startX endX) = nextSlide (recorded s startX endX)) ∧
    (startX - endX ≤ -(50 + 1 / 2 ^ (47 : ℕ)) →
      handleSwipe (recorded s startX endX) = prevSlide (recorded s startX endX)) ∧
    (|startX - endX| ≤ 50 →
      handleSwipe (recorded s startX endX) = Outcome.done (recorded s startX endX)) := by
  refine ⟨rfl, fun d hd => ⟨fun h => ?_, fun h => ?_, fun h => ?_⟩, fun h => ?_, fun h => ?_,
    fun h => ?_, fun h => ?_, fun h => ?_⟩
  · apply handleSwipe_forward
    show (jsSub startX endX).gt 50 = true
    rw [hd]
    simpa [JSNum.gt] using h
  · apply handleSwipe_backward _ (JSNum.fin (-d))
    · show jsSub startX endX = _
      rw [hd]
      simp [JSNum.neg]
    · simp only [JSNum.gt, decide_eq_true_eq]
      linarith
  · exact handleSwipe_still _ d hd h
  · apply handleSwipe_forward
    show (jsSub startX endX).gt 50 = true
    rw [h]
    rfl
  · exact handleSwipe_backward _ JSNum.posInf h rfl
  · exact handleSwipe_forward _ (jsSub_of_ge startX endX h)
  · obtain ⟨x, hx, hgt⟩ := jsSub_of_le startX endX h
    exact handleSwipe_backward _ x hx hgt
  · obtain ⟨d, hd, hle⟩ := jsSub_of_abs_le startX endX h
    exact handleSwipe_still _ d hd hle

/-- C7 on the five-slide deck: swipes of 60 px either way navigate, as does one
of 50.5 px; swipes of 30 px and of exactly 50 px do nothing. -/
theorem C7_witness :
    handleSwipe (recorded deck5 200 140) = nextSlide (recorded deck5 200 140) ∧
      handleSwipe (recorded deck5 140 200) = prevSlide (recorded deck5 140 200) ∧
      handleSwipe (recorded deck5 (201 / 2) 50) = nextSlide (recorded deck5 (201 / 2) 50) ∧
      handleSwipe (recorded deck5 200 170) = Outcome.done (recorded deck5 200 170) ∧
      handleSwipe (recorded deck5 200 150) = Outcome.done (recorded deck5 200 150) :=
  ⟨(C7_swipe_threshold deck5 200 140).2.2.2.2.1 (by norm_num),
   (C7_swipe_threshold deck5 140 200).2.2.2.2.2.1 (by norm_num),
   (C7_swipe_threshold deck5 (201 / 2) 50).2.2.2.2.1 (by norm_num),
   (C7_swipe_threshold deck5 200 170).2.2.2.2.2.2 (by norm_num [abs_le]),
   (C7_swipe_threshold deck5 200 150).2.2.2.2.2.2 (by norm_num [abs_le])⟩

/-- C8, as stated, fails on a page without slides: the target `totalSlides - 1`
of the `End` key is `-1`, `goToSlide` ignores it, and the index stays `0`. -/
theorem C8_counterexample :
    ControllerState (constructor (pageOf [])) ∧
    (keydown (constructor (pageOf [])) ⟨"End", false, false⟩).outcome.state.currentSlide = 0 ∧
    (constructor (pageOf [])).totalSlides - 1 = -1 := by
  decide

/-- C8, amended. In a controller state, whatever the index, the `Home` key
leaves the index at `0`, and on a deck of at least one slide the `End` key
leaves it at `totalSlides - 1`. -/
theorem C8_home_and_end (s : State) (ctrl cmd : Bool) (hs : ControllerState s) :
    (∃ t, (keydown s ⟨"Home", ctrl, cmd⟩).outcome = Outcome.done t ∧ t.currentSlide = 0) ∧
    (1 ≤ s.totalSlides →
      ∃ t, (keydown s ⟨"End", ctrl, cmd⟩).outcome = Outcome.done t ∧
        t.currentSlide = s.totalSlides - 1 ∧ t.totalSlides = s.totalSlides) := by
  obtain ⟨hlen, _, hcur⟩ := hs
  constructor
  · show ∃ t, goToSlide s 0 = _ ∧ _
    by_cases h : 1 ≤ s.totalSlides
    · have hc : 0 ≤ s.currentSlide ∧ s.currentSlide < s.totalSlides := by omega
      obtain ⟨t, ht, hidx, _⟩ := goToSlide_in_range s 0 hlen hc.1 hc.2 le_rfl (by omega)
      exact ⟨t, ht, hidx⟩
    · exact ⟨s, goToSlide_out_of_range s 0 (Or.inr (by omega)), by omega⟩
  · intro h
    show ∃ t, goToSlide s (s.totalSlides - 1) = _ ∧ _
    have hc : 0 ≤ s.currentSlide ∧ s.currentSlide < s.totalSlides := by omega
    obtain ⟨t, ht, hidx, htot, _⟩ :=
      goToSlide_in_range s (s.totalSlides - 1) hlen hc.1 hc.2 (by omega) (by omega)
    exact ⟨t, ht, hidx, htot⟩

/-- C8 on the five-slide deck: `Home` gives index `0`, `End` gives index `totalSlides - 1`. -/
theorem C8_witness :
    ControllerState deck5 ∧ (1 : Int) ≤ deck5.totalSlides ∧
      (∃ t, (keydown deck5 ⟨"Home", false, false⟩).outcome = Outcome.done t ∧
        t.currentSlide = 0) ∧
      ∃ t, (keydown deck5 ⟨"End", false, false⟩).outcome = Outcome.done t ∧
        t.currentSlide = deck5.totalSlides - 1 ∧ t.totalSlides = deck5.totalSlides :=
  ⟨by decide, by decide, (C8_home_and_end deck5 false false (by decide)).1,
    (C8_home_and_end deck5 false false (by decide)).2 (by decide)⟩

/-- C9. In a controller state, the digit key `d` (`1 ≤ d ≤ 9`) with Ctrl or Cmd
held sets the index to `d - 1` when `d ≤ totalSlides` and returns the state as
it is when `d > totalSlides`. -/
theorem C9_ctrl_digit_jump (s : State) (d : Nat) (ctrl cmd : Bool) (hs : ControllerState s)
    (hd1 : 1 ≤ d) (hd9 : d ≤ 9) (hmod : ctrl = true ∨ cmd = true) :
    ((d : Int) ≤ s.totalSlides →
      ∃ t, (keydown s ⟨digitKey d, ctrl, cmd⟩).outcome = Outcome.done t ∧
        t.currentSlide = (d : Int) - 1) ∧
    ((d : Int) > s.totalSlides →
      (keydown s ⟨digitKey d, ctrl, cmd⟩).outcome = Outcome.done s) := by
  obtain ⟨hlen, _, hcur⟩ := hs
  have hor : (ctrl || cmd) = true := by
    rcases hmod with h | h <;> simp [h]
  have hkey : (keydown s ⟨digitKey d, ctrl, cmd⟩).outcome =
      if (d : Int) - 1 < s.totalSlides then goToSlide s ((d : Int) - 1) else Outcome.done s := by
    obtain ⟨k1, k2, k3, k4, k5, k6, k7, k8, k9⟩ := digitKey_values
    interval_cases d <;> simp [keydown, parseInt, hor, k1, k2, k3, k4, k5, k6, k7, k8, k9] <;>
      split <;> rfl
  rw [hkey]
  constructor
  · intro hle
    rw [if_pos (by omega)]
    have hc : 0 ≤ s.currentSlide ∧ s.currentSlide < s.totalSlides := by omega
    obtain ⟨t, ht, hidx, _⟩ :=
      goToSlide_in_range s ((d : Int) - 1) hlen hc.1 hc.2 (by omega) (by omega)
    exact ⟨t, ht, hidx⟩
  · intro hgt
    rw [if_neg (by omega)]

/-- C9 on the five-slide deck: Ctrl+3 gives index `2`, Cmd+7 changes nothing. -/
theorem C9_witness :
    (∃ t, (keydown deck5 ⟨"3", true, false⟩).outcome = Outcome.done t ∧ t.currentSlide = 2) ∧
      (keydown deck5 ⟨"7", false, true⟩).outcome = Outcome.done deck5 :=
  ⟨(C9_ctrl_digit_jump deck5 3 true false (by decide) (by decide) (by decide)
      (Or.inl rfl)).1 (by decide),
   (C9_ctrl_digit_jump deck5 7 false true (by decide) (by decide) (by decide)
      (Or.inr rfl)).2 (by decide)⟩

/-- C10. The `keydown` listener calls `preventDefault` for ArrowRight, Space,
PageDown, ArrowLeft, PageUp, Home and End and for a digit `1`-`9` with Ctrl or
Cmd held, in every state and so whether or not the index changes; for a digit
without Ctrl and Cmd and for every other key it does not call `preventDefault`
and returns the state as it is. -/
theorem C10_handled_keys_prevent_default (s : State) (e : KeyEvent) :
    (e.key ∈ navigationKeys → (keydown s e).defaultPrevented = true) ∧
    (e.key ∈ digitKeys → e.ctrlKey = true ∨ e.metaKey = true →
      (keydown s e).defaultPrevented = true) ∧
    (e.key ∈ digitKeys → e.ctrlKey = false → e.metaKey = false →
      keydown s e = ⟨Outcome.done s, false⟩) ∧
    (e.key ∉ navigationKeys ++ digitKeys → keydown s e = ⟨Outcome.done s, false⟩) := by
  refine ⟨fun h => ?_, fun h hmod => ?_, fun h hc hm => ?_, fun h => ?_⟩
  · simp only [navigationKeys, List.mem_cons, List.mem_singleton, List.not_mem_nil,
      or_false] at h
    rcases h with h | h | h | h | h | h | h <;> simp [keydown, h]
  · have hor : (e.ctrlKey || e.metaKey) = true := by
      rcases hmod with h1 | h1 <;> simp [h1]
    simp only [digitKeys, List.mem_cons, List.mem_singleton, List.not_mem_nil,
      or_false] at h
    rcases h with h | h | h | h | h | h | h | h | h <;>
      simp [keydown, parseInt, h, hor] <;> split <;> rfl
  · simp only [digitKeys, List.mem_cons, List.mem_singleton, List.not_mem_nil,
      or_false] at h
    rcases h with h | h | h | h | h | h | h | h | h <;> simp [keydown, h, hc, hm]
  · simp [navigationKeys, digitKeys] at h
    unfold keydown
    split <;> simp_all

/-- C10 on the five-slide deck at index `0`: ArrowLeft and Ctrl+9 change nothing and still suppress the default; `9` alone and `a` do neither. -/
theorem C10_witness :
    (keydown deck5 ⟨"ArrowLeft", false, false⟩).defaultPrevented = true ∧
      (keydown deck5 ⟨"ArrowLeft", false, false⟩).outcome = Outcome.done deck5 ∧
      (keydown deck5 ⟨"9", true, false⟩).defaultPrevented = true ∧
      (keydown deck5 ⟨"9", true, false⟩).outcome = Outcome.done deck5 ∧
      keydown deck5 ⟨"9", false, false⟩ = ⟨Outcome.done deck5, false⟩ ∧
      keydown deck5 ⟨"a", false, false⟩ = ⟨Outcome.done deck5, false⟩ :=
  ⟨(C10_handled_keys_prevent_default deck5 ⟨"ArrowLeft", false, false⟩).1 (by decide),
   rfl,
   (C10_handled_keys_prevent_default deck5 ⟨"9", true, false⟩).2.1 (by decide) (Or.inl rfl),
   rfl,
   (C10_handled_keys_prevent_default deck5 ⟨"9", false, false⟩).2.2.1 (by decide) rfl rfl,
   (C10_handled_keys_prevent_default deck5 ⟨"a", false, false⟩).2.2.2 (by decide)⟩

end FiqhPresentation
